import Mathlib

/-!
Verification development for the ProcessGuard supervisor daemon
(`backend/src/core/{process_manager,crash_manager,alerting,enhanced_process_manager}.py`
and `backend/src/models/process.py`).

The Python code is shallowly embedded: mutable objects become explicit state
records, `datetime.now()` becomes an explicit `now : Int` argument (seconds),
Python dicts become association lists (where iteration order matters) or
total functions with `Option` values (where only lookup matters), and the
outside world (subprocess spawning, `psutil` sampling, `poll()`, exceptions
raised while signalling children) is supplied through explicit oracle
arguments, so every operation is a pure function of the state and the oracle.
-/

namespace ProcessGuard

/-! ### Generic dictionary helpers -/

/-- Pointwise update of a function-valued dictionary (`d[k] = v`). -/
def setVal {α : Type} (f : String → α) (k : String) (v : α) : String → α :=
  fun k' => if k' = k then v else f k'

/-- First-match lookup in an association list (a Python `dict` read). -/
def lookupA {β : Type} (k : String) : List (String × β) → Option β
  | [] => none
  | e :: l => if e.1 = k then some e.2 else lookupA k l

/-- Update the value stored under key `k` (a Python `dict` write to an
existing key, which keeps the key's insertion position). -/
def updateA {β : Type} (k : String) (f : β → β) : List (String × β) → List (String × β)
  | [] => []
  | e :: l => if e.1 = k then (e.1, f e.2) :: updateA k f l else e :: updateA k f l

/-- `d[k] = v` on an association list: overwrite in place if the key exists,
otherwise append at the end (Python dict insertion-order semantics). -/
def setA {β : Type} (k : String) (v : β) (l : List (String × β)) : List (String × β) :=
  if (lookupA k l).isSome then updateA k (fun _ => v) l else l ++ [(k, v)]

/-! ### Crash Policy Engine (`core/crash_manager.py`) -/

/-- `CrashAction` enum of `crash_manager.py`. -/
inductive CrashAction
  | restart
  | disable
  | kill_dependencies
  | quarantine
deriving DecidableEq

/-- `CrashEvent` dataclass.  Timestamps are seconds (`datetime` in the source). -/
structure CrashEvent where
  timestamp : Int
  process_name : String
  crash_reason : String
  exit_code : Option Int := none
  restart_attempt : Nat := 0
deriving DecidableEq

/-- `CrashPolicy` dataclass with its source defaults. -/
structure CrashPolicy where
  max_crashes : Nat := 5
  time_window_minutes : Nat := 10
  action_on_threshold : CrashAction := CrashAction.disable
  kill_dependencies : Bool := false
  quarantine_duration_minutes : Nat := 60
  escalation_enabled : Bool := true
deriving DecidableEq

/-- `CrashManager` state.  `crash_history` is a `defaultdict(deque maxlen=100)`;
`dependencies` a `defaultdict(set)` (modelled as a duplicate-free list);
the remaining dicts are modelled as `Option`-valued functions. -/
structure CrashManager where
  crash_history : String → List CrashEvent
  dependencies : String → List String
  crash_policies : String → Option CrashPolicy
  disabled_processes : String → Option Int
  quarantined_processes : String → Option Int

/-- Fresh `CrashManager()` state. -/
def CrashManager.init : CrashManager where
  crash_history := fun _ => []
  dependencies := fun _ => []
  crash_policies := fun _ => none
  disabled_processes := fun _ => none
  quarantined_processes := fun _ => none

/-- `deque(maxlen=cap).append`: drop from the left once the ring is full. -/
def dequeAppend (cap : Nat) (l : List CrashEvent) (e : CrashEvent) : List CrashEvent :=
  let l2 := l ++ [e]
  if l2.length > cap then l2.drop (l2.length - cap) else l2

/-- `self.crash_policies.get(process_name, CrashPolicy())`. -/
def CrashManager.getPolicy (cm : CrashManager) (name : String) : CrashPolicy :=
  (cm.crash_policies name).getD {}

/-- `CrashManager.set_crash_policy`. -/
def setCrashPolicy (cm : CrashManager) (name : String) (policy : CrashPolicy) : CrashManager :=
  { cm with crash_policies := setVal cm.crash_policies name (some policy) }

/-- `CrashManager.add_dependency`: `dependencies[depends_on].add(process_name)`. -/
def addDependency (cm : CrashManager) (process_name depends_on : String) : CrashManager :=
  let s := cm.dependencies depends_on
  let s' := if process_name ∈ s then s else s ++ [process_name]
  { cm with dependencies := setVal cm.dependencies depends_on s' }

/-- `CrashManager.remove_dependency`: `dependencies[depends_on].discard(process_name)`. -/
def removeDependency (cm : CrashManager) (process_name depends_on : String) : CrashManager :=
  { cm with dependencies :=
      setVal cm.dependencies depends_on ((cm.dependencies depends_on).erase process_name) }

/-- `CrashManager._evaluate_crash_policy`: count ring entries newer than
`now - time_window` and compare against `max_crashes`. -/
def evaluateCrashPolicy (cm : CrashManager) (name : String) (now : Int) : CrashAction :=
  let policy := cm.getPolicy name
  let cutoff : Int := now - policy.time_window_minutes * 60
  let recent := (cm.crash_history name).filter (fun c => decide (c.timestamp > cutoff))
  if recent.length ≥ policy.max_crashes then policy.action_on_threshold
  else CrashAction.restart

/-- `CrashManager._disable_process` (the internal crash alert is log-only). -/
def disableProcess (cm : CrashManager) (name : String) (now : Int) : CrashManager :=
  { cm with disabled_processes := setVal cm.disabled_processes name (some now) }

/-- `CrashManager._quarantine_process`: expiry `now + quarantine_duration`. -/
def quarantineProcess (cm : CrashManager) (name : String) (now : Int) : CrashManager :=
  let policy := cm.getPolicy name
  let quarUntil : Int := now + policy.quarantine_duration_minutes * 60
  { cm with quarantined_processes := setVal cm.quarantined_processes name (some quarUntil) }

/-- `CrashManager._kill_dependent_processes`: disable every registered dependent. -/
def killDependentProcesses (cm : CrashManager) (failed_process : String) (now : Int) :
    CrashManager :=
  let disabled := (cm.dependencies failed_process).foldl
    (fun d dependent => setVal d dependent (some now)) cm.disabled_processes
  { cm with disabled_processes := disabled }

/-- `CrashManager._execute_crash_action`. -/
def executeCrashAction (cm : CrashManager) (name : String) (action : CrashAction) (now : Int) :
    CrashManager :=
  match action with
  | CrashAction.restart => cm
  | CrashAction.disable => disableProcess cm name now
  | CrashAction.kill_dependencies => killDependentProcesses (disableProcess cm name now) name now
  | CrashAction.quarantine => quarantineProcess cm name now

/-- `CrashManager.record_crash`: append the event to the ring, evaluate the
policy on the post-append ring, execute the resulting action, return it. -/
def recordCrash (cm : CrashManager) (name crash_reason : String) (exit_code : Option Int)
    (now : Int) : CrashAction × CrashManager :=
  let ev : CrashEvent :=
    { timestamp := now, process_name := name, crash_reason := crash_reason,
      exit_code := exit_code }
  let hist := setVal cm.crash_history name (dequeAppend 100 (cm.crash_history name) ev)
  let cm1 := { cm with crash_history := hist }
  let action := evaluateCrashPolicy cm1 name now
  (action, executeCrashAction cm1 name action now)

/-- `CrashManager.can_restart_process`: disabled wins; an unexpired quarantine
refuses; an expired quarantine is lazily deleted on the way to `(true, _)`. -/
def canRestartProcess (cm : CrashManager) (name : String) (now : Int) :
    (Bool × String) × CrashManager :=
  match cm.disabled_processes name with
  | some disabled_at =>
      ((false, "Process disabled due to crashes at " ++ toString disabled_at), cm)
  | none =>
      match cm.quarantined_processes name with
      | some quarUntil =>
          if now < quarUntil then
            let remaining := quarUntil - now
            ((false, "Process quarantined for " ++ toString remaining ++ " more seconds"), cm)
          else
            ((true, "Process can be restarted"),
             { cm with quarantined_processes := setVal cm.quarantined_processes name none })
      | none => ((true, "Process can be restarted"), cm)

/-- `CrashManager.force_enable_process`. -/
def forceEnableProcess (cm : CrashManager) (name : String) : Bool × CrashManager :=
  let removedD := (cm.disabled_processes name).isSome
  let cm1 := { cm with disabled_processes := setVal cm.disabled_processes name none }
  let removedQ := (cm1.quarantined_processes name).isSome
  let cm2 := { cm1 with quarantined_processes := setVal cm1.quarantined_processes name none }
  let removed := removedD || removedQ
  if removed then
    (true, { cm2 with crash_history := setVal cm2.crash_history name [] })
  else (false, cm2)

/-- `CrashManager.cleanup_expired_quarantines`. -/
def cleanupExpiredQuarantines (cm : CrashManager) (now : Int) : CrashManager :=
  { cm with quarantined_processes := fun name =>
      match cm.quarantined_processes name with
      | some quarUntil => if now ≥ quarUntil then none else some quarUntil
      | none => none }

/-- `CrashManager.reset_crash_history`. -/
def resetCrashHistory (cm : CrashManager) (name : String) : CrashManager :=
  { cm with crash_history := setVal cm.crash_history name [] }

/-! Reachable Crash Policy Engine states: a trace of public calls applied to
a fresh `CrashManager` (claim C2 quantifies over these). -/

/-- One public Crash Policy Engine call. -/
inductive CMOp
  | record (name crash_reason : String) (exit_code : Option Int) (now : Int)
  | setPolicy (name : String) (policy : CrashPolicy)
  | addDep (process_name depends_on : String)
  | removeDep (process_name depends_on : String)
  | canRestart (name : String) (now : Int)
  | forceEnable (name : String)
  | cleanup (now : Int)
  | resetHistory (name : String)

/-- Apply one call (return values discarded, state kept). -/
def applyCM (cm : CrashManager) : CMOp → CrashManager
  | CMOp.record name reason ec now => (recordCrash cm name reason ec now).2
  | CMOp.setPolicy name policy => setCrashPolicy cm name policy
  | CMOp.addDep pn dep => addDependency cm pn dep
  | CMOp.removeDep pn dep => removeDependency cm pn dep
  | CMOp.canRestart name now => (canRestartProcess cm name now).2
  | CMOp.forceEnable name => (forceEnableProcess cm name).2
  | CMOp.cleanup now => cleanupExpiredQuarantines cm now
  | CMOp.resetHistory name => resetCrashHistory cm name

/-- Run a trace of Crash Policy Engine calls from the fresh state. -/
def runCM (ops : List CMOp) : CrashManager :=
  ops.foldl applyCM CrashManager.init

/-! ### Process data model (`models/process.py`) -/

/-- `ProcessStatus` enum. -/
inductive ProcessStatus
  | stopped
  | starting
  | running
  | stopping
  | failed
  | unknown
deriving DecidableEq

/-- `ProcessType` enum. -/
inductive ProcessType
  | nodejs
  | python
  | java
  | go
  | rust
  | generic
deriving DecidableEq

/-- `ProcessConfig` dataclass (source defaults; float thresholds as `Rat`). -/
structure ProcessConfig where
  name : String
  command : String
  working_dir : String
  process_type : ProcessType := ProcessType.generic
  env_vars : List (String × String) := []
  auto_restart : Bool := true
  max_restarts : Nat := 5
  restart_delay : Nat := 5
  log_file : Option String := none
  redirect_output : Bool := true
  cpu_limit : Option Rat := none
  memory_limit : Option Int := none
  alert_on_failure : Bool := true
  alert_on_high_cpu : Bool := true
  alert_on_high_memory : Bool := true
  cpu_threshold : Rat := 80
  memory_threshold : Rat := 80
deriving DecidableEq

/-- One entry of the `connections` list built by `get_process_metrics`. -/
structure ConnInfo where
  local_address : String
  remote_address : String
  conn_status : String
  conn_type : String
deriving DecidableEq

/-- `ProcessMetrics` dataclass (floats as `Rat`, datetimes as `Int` seconds). -/
structure ProcessMetrics where
  timestamp : Int
  pid : Option Nat
  cpu_percent : Rat
  memory_percent : Rat
  memory_mb : Rat
  open_files : Nat
  connections : List ConnInfo
  threads : Nat
  status : ProcessStatus
  uptime : Int
deriving DecidableEq

/-- `ManagedProcess` dataclass with its defaults. -/
structure ManagedProcess where
  config : ProcessConfig
  status : ProcessStatus := ProcessStatus.stopped
  pid : Option Nat := none
  started_at : Option Int := none
  restart_count : Nat := 0
  last_restart : Option Int := none
  metrics_history : List ProcessMetrics := []
deriving DecidableEq

/-! ### Supervisor (`core/process_manager.py`)

External effects are supplied as oracle arguments:
* spawning (`subprocess.Popen` and the file/directory work before it) either
  yields a child pid or raises — `spawn : Option Nat`;
* the signalling sequence of a graceful/forced stop can raise
  (e.g. `os.getpgid` on an already-reaped child) — `stopRaises : Bool`;
* `psutil` sampling either yields raw readings or reports the process gone —
  `raw : Option RawSample`;
* `popen.poll()` yields `some exitCode` once the child has exited —
  `poll : Option Int`.
-/

/-- Raw per-process readings an alive `psutil.Process` yields. -/
structure RawSample where
  cpu_percent : Rat
  memory_percent : Rat
  memory_mb : Rat
  open_files : Nat
  connections : List ConnInfo
  threads : Nat
deriving DecidableEq

/-- `ProcessManager` state: the registry dict (insertion-ordered) and the
names holding a live entry in `_subprocess_handles`. -/
structure ProcessManager where
  processes : List (String × ManagedProcess)
  subprocess_handles : List String
deriving DecidableEq

/-- Fresh `ProcessManager()`. -/
def ProcessManager.init : ProcessManager where
  processes := []
  subprocess_handles := []

/-- Python truthiness of `process.pid` (`None` and `0` are falsy). -/
def pidTruthy : Option Nat → Bool
  | none => false
  | some n => n ≠ 0

/-- `ProcessManager.add_process`. -/
def addProcess (pm : ProcessManager) (config : ProcessConfig) : Bool × ProcessManager :=
  if (lookupA config.name pm.processes).isSome then (false, pm)
  else (true, { pm with processes := pm.processes ++ [(config.name, { config := config })] })

/-- `ProcessManager.start_process`.  `spawn = some pid` models a successful
`Popen`; `spawn = none` models any exception raised in the `try` block before
the handle is recorded (the process is left `FAILED`, `pid` untouched). -/
def startProcess (pm : ProcessManager) (name : String) (spawn : Option Nat) (now : Int) :
    Bool × ProcessManager :=
  match lookupA name pm.processes with
  | none => (false, pm)
  | some process =>
    if process.status = ProcessStatus.running then (true, pm)
    else
      match spawn with
      | some newPid =>
          let procs := updateA name (fun p =>
            { p with pid := some newPid, started_at := some now,
                     status := ProcessStatus.running }) pm.processes
          let handles := if name ∈ pm.subprocess_handles then pm.subprocess_handles
                         else pm.subprocess_handles ++ [name]
          (true, { processes := procs, subprocess_handles := handles })
      | none =>
          let procs := updateA name (fun p => { p with status := ProcessStatus.failed })
            pm.processes
          (false, { pm with processes := procs })

/-- `ProcessManager.stop_process`.  `stopRaises` models an exception inside the
signalling block (only reachable when a handle exists): the function then
returns `False` with the process left `STOPPING`, its pid and handle intact. -/
def stopProcess (pm : ProcessManager) (name : String) (force : Bool) (stopRaises : Bool) :
    Bool × ProcessManager :=
  match lookupA name pm.processes with
  | none => (false, pm)
  | some process =>
    if process.status ≠ ProcessStatus.running then (true, pm)
    else if name ∈ pm.subprocess_handles ∧ stopRaises then
      let procs := updateA name (fun p => { p with status := ProcessStatus.stopping })
        pm.processes
      (false, { pm with processes := procs })
    else
      let procs := updateA name (fun p =>
        { p with status := ProcessStatus.stopped, pid := none }) pm.processes
      (true, { processes := procs, subprocess_handles := pm.subprocess_handles.erase name })

/-- `ProcessManager.restart_process`: stop if running, sleep `restart_delay`,
start; on a successful start bump `restart_count` and stamp `last_restart`. -/
def restartProcess (pm : ProcessManager) (name : String) (stopRaises : Bool)
    (spawn : Option Nat) (now : Int) : Bool × ProcessManager :=
  match lookupA name pm.processes with
  | none => (false, pm)
  | some process =>
    let step1 : Bool × ProcessManager :=
      if process.status = ProcessStatus.running then stopProcess pm name false stopRaises
      else (true, pm)
    if step1.1 = false then (false, step1.2)
    else
      let started := startProcess step1.2 name spawn now
      if started.1 then
        let procs := updateA name (fun p =>
          { p with restart_count := p.restart_count + 1, last_restart := some now })
          started.2.processes
        (true, { started.2 with processes := procs })
      else (false, started.2)

/-- The zeroed `ProcessMetrics` record built when `process.pid` is falsy. -/
def emptyMetrics (now : Int) (status : ProcessStatus) : ProcessMetrics where
  timestamp := now
  pid := none
  cpu_percent := 0
  memory_percent := 0
  memory_mb := 0
  open_files := 0
  connections := []
  threads := 0
  status := status
  uptime := 0

/-- The `ProcessMetrics` record built from live `psutil` readings
(`uptime = now - started_at` when `started_at` is set, else 0). -/
def liveSample (process : ManagedProcess) (r : RawSample) (now : Int) : ProcessMetrics :=
  { timestamp := now, pid := process.pid, cpu_percent := r.cpu_percent,
    memory_percent := r.memory_percent, memory_mb := r.memory_mb,
    open_files := r.open_files, connections := r.connections,
    threads := r.threads, status := process.status,
    uptime := match process.started_at with
      | some s => now - s
      | none => 0 }

/-- `metrics_history.append(m)` followed by the
`if len > 1000: history = history[-500:]` compaction. -/
def appendCompact (h : List ProcessMetrics) (m : ProcessMetrics) : List ProcessMetrics :=
  let h2 := h ++ [m]
  if h2.length > 1000 then h2.drop (h2.length - 500) else h2

/-- `ProcessManager.get_process_metrics`: build a sample from the `psutil`
readings, append it to the history, compact `> 1000` down to the newest 500;
a vanished process yields a synthetic FAILED sample and flips the record. -/
def getProcessMetrics (pm : ProcessManager) (name : String) (raw : Option RawSample)
    (now : Int) : Option ProcessMetrics × ProcessManager :=
  match lookupA name pm.processes with
  | none => (none, pm)
  | some process =>
    if ¬ pidTruthy process.pid then (some (emptyMetrics now process.status), pm)
    else
      match raw with
      | some r =>
          let m := liveSample process r now
          let procs := updateA name (fun p =>
            { p with metrics_history := appendCompact p.metrics_history m }) pm.processes
          (some m, { pm with processes := procs })
      | none =>
          let procs := updateA name (fun p =>
            { p with status := ProcessStatus.failed, pid := none }) pm.processes
          (some (emptyMetrics now ProcessStatus.failed), { pm with processes := procs })

/-- `ProcessManager.check_process_health`: a handle whose `poll()` is non-`None`
flips the record to FAILED, clears the pid and drops the handle. -/
def checkProcessHealth (pm : ProcessManager) (name : String) (poll : Option Int) :
    Bool × ProcessManager :=
  match lookupA name pm.processes with
  | none => (false, pm)
  | some process =>
    if name ∈ pm.subprocess_handles ∧ poll.isSome then
      let procs := updateA name (fun p =>
        { p with status := ProcessStatus.failed, pid := none }) pm.processes
      (false, { processes := procs, subprocess_handles := pm.subprocess_handles.erase name })
    else (decide (process.status = ProcessStatus.running), pm)

/-- Per-name oracle for the restarts a sweep performs. -/
structure RestartEnv where
  stopRaises : Bool
  spawn : Option Nat
deriving DecidableEq

/-- Body of `ProcessManager.auto_restart_failed_processes`: walk the names in
registry order; restart each process that is FAILED with `auto_restart` set
and `restart_count < max_restarts`.  Eligibility is read from the current
state, exactly as the Python `for name, process in self.processes.items()`
loop observes the mutating records. -/
def sweepGo (env : String → RestartEnv) (now : Int) :
    ProcessManager → List String → ProcessManager
  | pm, [] => pm
  | pm, n :: ns =>
    let pm' := match lookupA n pm.processes with
      | some process =>
          if process.status = ProcessStatus.failed ∧ process.config.auto_restart ∧
              process.restart_count < process.config.max_restarts then
            (restartProcess pm n (env n).stopRaises (env n).spawn now).2
          else pm
      | none => pm
    sweepGo env now pm' ns

/-- `ProcessManager.auto_restart_failed_processes`. -/
def autoRestartFailedProcesses (pm : ProcessManager) (env : String → RestartEnv)
    (now : Int) : ProcessManager :=
  sweepGo env now pm (pm.processes.map Prod.fst)

/-! ### EnhancedProcessManager (`core/enhanced_process_manager.py`)

Inherits the registry and every `ProcessManager` operation (none are
overridden) and adds a `CrashManager` plus its own `crash_history` dict of
log-detected crashes (only their `recorded_at` stamps matter here).  The
NodeJS monitor's `get_restart_strategy` is an external collaborator; its
chosen action is an oracle argument. -/

structure EnhancedProcessManager where
  base : ProcessManager
  crash_manager : CrashManager
  crash_history : String → List Int

/-- Fresh `EnhancedProcessManager()`. -/
def EnhancedProcessManager.init : EnhancedProcessManager where
  base := ProcessManager.init
  crash_manager := CrashManager.init
  crash_history := fun _ => []

/-- The inherited auto-restart sweep run on an enhanced manager: only the
base registry participates. -/
def autoRestartFailedProcessesE (epm : EnhancedProcessManager) (env : String → RestartEnv)
    (now : Int) : EnhancedProcessManager :=
  { epm with base := autoRestartFailedProcesses epm.base env now }

/-- `EnhancedProcessManager.intelligent_restart`: gate on
`can_restart_process`, record a synthetic `"restart_requested"` crash, consult
the NodeJS restart strategy when applicable, then run the plain restart. -/
def intelligentRestart (epm : EnhancedProcessManager) (name : String) (env : RestartEnv)
    (strategyAction : String) (now : Int) : Bool × EnhancedProcessManager :=
  match lookupA name epm.base.processes with
  | none => (false, epm)
  | some process =>
    let gate := canRestartProcess epm.crash_manager name now
    if gate.1.1 = false then (false, { epm with crash_manager := gate.2 })
    else
      let rec1 := recordCrash gate.2 name "restart_requested" none now
      let epm1 := { epm with crash_manager := rec1.2 }
      let crashes := epm.crash_history name
      let recent := crashes.filter (fun t => decide (t > now - 600))
      if process.config.process_type = ProcessType.nodejs ∧ recent ≠ [] ∧
          strategyAction = "no_restart" then
        (false, epm1)
      else
        let r := restartProcess epm1.base name env.stopRaises env.spawn now
        (r.1, { epm1 with base := r.2 })

/-! ### Supervisor operation traces (for the registry invariants)

One `POp` is one completed public call on the manager; the oracle outcomes
ride along with the call. -/

inductive POp
  | add (config : ProcessConfig)
  | start (name : String) (spawn : Option Nat) (now : Int)
  | stop (name : String) (force : Bool) (stopRaises : Bool)
  | restart (name : String) (stopRaises : Bool) (spawn : Option Nat) (now : Int)
  | sample (name : String) (raw : Option RawSample) (now : Int)
  | health (name : String) (poll : Option Int)

/-- Apply one supervisor call (results discarded, state kept). -/
def applyPM (pm : ProcessManager) : POp → ProcessManager
  | POp.add config => (addProcess pm config).2
  | POp.start name spawn now => (startProcess pm name spawn now).2
  | POp.stop name force stopRaises => (stopProcess pm name force stopRaises).2
  | POp.restart name stopRaises spawn now => (restartProcess pm name stopRaises spawn now).2
  | POp.sample name raw now => (getProcessMetrics pm name raw now).2
  | POp.health name poll => (checkProcessHealth pm name poll).2

/-- Run a trace of supervisor calls from the fresh manager. -/
def runPM (ops : List POp) : ProcessManager :=
  ops.foldl applyPM ProcessManager.init

/-- An operation whose stop phase (if any) completes without raising. -/
def POp.stopOk : POp → Prop
  | POp.stop _ _ stopRaises => stopRaises = false
  | POp.restart _ stopRaises _ _ => stopRaises = false
  | _ => True

/-! ### Alert Manager (`core/alerting.py`)

Python alert objects are shared between `self.alerts` and
`self.alert_history`; to keep that identity the state stores every alert
ever created in an `arena`, and the two lists hold arena indices.  Mutating
a flag mutates the arena cell, exactly as the Python object mutation is seen
through both lists.  Notification fan-out and user handlers are external
I/O with no effect on this state and are omitted. -/

/-- `AlertLevel` enum. -/
inductive AlertLevel
  | info
  | warning
  | critical
deriving DecidableEq

/-- `AlertType` enum. -/
inductive AlertType
  | process_failed
  | process_restarted
  | high_cpu
  | high_memory
  | system_high_cpu
  | system_high_memory
  | disk_full
  | process_unresponsive
deriving DecidableEq

/-- `.value` of each `AlertType` member. -/
def AlertType.value : AlertType → String
  | process_failed => "process_failed"
  | process_restarted => "process_restarted"
  | high_cpu => "high_cpu"
  | high_memory => "high_memory"
  | system_high_cpu => "system_high_cpu"
  | system_high_memory => "system_high_memory"
  | disk_full => "disk_full"
  | process_unresponsive => "process_unresponsive"

/-- `Alert` dataclass (timestamps as `Int` seconds). -/
structure Alert where
  id : String
  alert_type : AlertType
  level : AlertLevel
  title : String
  message : String
  process_name : Option String := none
  timestamp : Int
  acknowledged : Bool := false
  resolved : Bool := false
  metadata : List (String × String) := []
deriving DecidableEq

/-- `AlertManager` state (the `NotificationConfig` and handler registry do not
influence the alert bookkeeping and are omitted). -/
structure AlertManager where
  arena : List Alert
  alerts : List Nat
  alert_history : List Nat
  alert_cooldowns : List (String × Int)
deriving DecidableEq

/-- Fresh `AlertManager(...)`. -/
def AlertManager.init : AlertManager where
  arena := []
  alerts := []
  alert_history := []
  alert_cooldowns := []

/-- `COOLDOWN_DURATION = timedelta(minutes=5)` in seconds. -/
def cooldownDuration : Int := 300

/-- The dedup key `f"{alert_type.value}:{process_name or 'system'}"`
(Python `or`: `None` and the empty string both fall back to `"system"`). -/
def alertKey (alert_type : AlertType) (process_name : Option String) : String :=
  let pn := match process_name with
    | some s => if s = "" then "system" else s
    | none => "system"
  alert_type.value ++ ":" ++ pn

/-- `AlertManager.create_alert`: reject while the key's cooldown is live,
otherwise append the alert to the active list and history, restart the
cooldown, and compact the history ring (`> 1000` → newest 500). -/
def createAlert (am : AlertManager) (alert_type : AlertType) (level : AlertLevel)
    (title message : String) (process_name : Option String)
    (metadata : List (String × String)) (now : Int) : Option Alert × AlertManager :=
  let key := alertKey alert_type process_name
  let inCooldown := match lookupA key am.alert_cooldowns with
    | some t => decide (now < t)
    | none => false
  if inCooldown then (none, am)
  else
    let a : Alert :=
      { id := alert_type.value ++ "_" ++ toString now, alert_type := alert_type,
        level := level, title := title, message := message,
        process_name := process_name, timestamp := now, metadata := metadata }
    let idx := am.arena.length
    let hist := am.alert_history ++ [idx]
    let hist2 := if hist.length > 1000 then hist.drop (hist.length - 500) else hist
    (some a,
     { arena := am.arena ++ [a], alerts := am.alerts ++ [idx], alert_history := hist2,
       alert_cooldowns := setA key (now + cooldownDuration) am.alert_cooldowns })

/-- Loop of `AlertManager.acknowledge_alert` over `self.alerts`: set the flag
on the first alert whose id matches.  (An index missing from the arena cannot
arise from the operations; such entries are skipped.) -/
def ackGo (arena : List Alert) (alert_id : String) : List Nat → Bool × List Alert
  | [] => (false, arena)
  | i :: rest =>
    match arena.get? i with
    | some a =>
        if a.id = alert_id then (true, arena.set i { a with acknowledged := true })
        else ackGo arena alert_id rest
    | none => ackGo arena alert_id rest

/-- `AlertManager.acknowledge_alert`. -/
def acknowledgeAlert (am : AlertManager) (alert_id : String) : Bool × AlertManager :=
  let r := ackGo am.arena alert_id am.alerts
  (r.1, { am with arena := r.2 })

/-- Loop of `AlertManager.resolve_alert`: on the first id match, set
`resolved` and pop that position from the active list in the same step. -/
def resolveGo (arena : List Alert) (alert_id : String) :
    List Nat → Bool × List Nat × List Alert
  | [] => (false, [], arena)
  | i :: rest =>
    match arena.get? i with
    | some a =>
        if a.id = alert_id then (true, rest, arena.set i { a with resolved := true })
        else
          let r := resolveGo arena alert_id rest
          (r.1, i :: r.2.1, r.2.2)
    | none =>
        let r := resolveGo arena alert_id rest
        (r.1, i :: r.2.1, r.2.2)

/-- `AlertManager.resolve_alert`. -/
def resolveAlert (am : AlertManager) (alert_id : String) : Bool × AlertManager :=
  let r := resolveGo am.arena alert_id am.alerts
  (r.1, { am with alerts := r.2.1, arena := r.2.2 })

/-- `AlertManager.get_active_alerts`. -/
def getActiveAlerts (am : AlertManager) : List Alert :=
  ((am.alerts.filterMap (fun i => am.arena.get? i)).filter (fun a => ¬ a.resolved))

/-- One `create_alert` call's arguments (for alert traces). -/
structure ACall where
  alert_type : AlertType
  level : AlertLevel
  title : String
  message : String
  process_name : Option String
  metadata : List (String × String)
  now : Int

/-- Apply one `create_alert` call, keeping the state. -/
def applyAC (am : AlertManager) (c : ACall) : AlertManager :=
  (createAlert am c.alert_type c.level c.title c.message c.process_name c.metadata c.now).2

/-- Run a trace of `create_alert` calls from the fresh manager. -/
def runAlerts (calls : List ACall) : AlertManager :=
  calls.foldl applyAC AlertManager.init

/-! ### Verification-side definitions: named predicates and concrete states -/

/-- Registry invariant strengthening used for the pid/status analysis: after
any completed call run without stop failures, a record's pid is set exactly
when it is RUNNING, and the transient STOPPING status never survives a call. -/
def PMInv (pm : ProcessManager) : Prop :=
  ∀ name p, lookupA name pm.processes = some p →
    ((p.pid ≠ none ↔ p.status = ProcessStatus.running) ∧
      p.status ≠ ProcessStatus.stopping)

/-- A quarantine-on-threshold policy that fires on the first crash. -/
def qPolicy : CrashPolicy := { max_crashes := 1, action_on_threshold := CrashAction.quarantine }

/-- A disable-on-threshold policy that fires on the first crash. -/
def dPolicy : CrashPolicy := { max_crashes := 1, action_on_threshold := CrashAction.disable }

/-- Crash Policy Engine trace: quarantine `"svc"` under a quarantine policy,
then switch the policy to disable and crash it again. -/
def cmTraceBoth : List CMOp :=
  [CMOp.setPolicy "svc" qPolicy, CMOp.record "svc" "crash" none 0,
   CMOp.setPolicy "svc" dPolicy, CMOp.record "svc" "crash" none 1]

/-- Crash Policy Engine trace that just disables `"svc"`. -/
def cmTraceDisabled : List CMOp :=
  [CMOp.setPolicy "svc" dPolicy, CMOp.record "svc" "crash" none 0]

/-- A minimal process configuration named `"svc"`. -/
def cfgSvc : ProcessConfig := { name := "svc", command := "run", working_dir := "/w" }

/-- Registry holding `"svc"` in FAILED state (registered, then a spawn failure). -/
def pmFailedSvc : ProcessManager :=
  (startProcess (addProcess ProcessManager.init cfgSvc).2 "svc" none 0).2

/-- Enhanced manager: `"svc"` FAILED in the registry and disabled in the
Crash Policy Engine. -/
def epmDisabledSvc : EnhancedProcessManager :=
  { base := pmFailedSvc, crash_manager := runCM cmTraceDisabled, crash_history := fun _ => [] }

/-- Enhanced manager: `"svc"` FAILED in the registry, fresh crash engine. -/
def epmFreshSvc : EnhancedProcessManager :=
  { base := pmFailedSvc, crash_manager := CrashManager.init, crash_history := fun _ => [] }

/-- Restart oracle: stops succeed, spawns succeed with pid 7. -/
def envSpawn7 : String → RestartEnv := fun _ => { stopRaises := false, spawn := some 7 }

/-- A minimal process configuration named `"p"`. -/
def cfgP : ProcessConfig := { name := "p", command := "run", working_dir := "/w" }

/-- Supervisor trace: register and successfully start `"p"`. -/
def pmRunningP : ProcessManager :=
  (startProcess (addProcess ProcessManager.init cfgP).2 "p" (some 42) 0).2

/-- Does the active-list entry `i` point at an arena alert with id `aid`? -/
def matchesId (arena : List Alert) (aid : String) (i : Nat) : Bool :=
  match arena.get? i with
  | some a => decide (a.id = aid)
  | none => false

/-- Alert-manager invariant behind the cooldown separation: every alert ever
accepted is covered by a live-or-past cooldown entry for its key that extends
at least `cooldownDuration` past the alert's timestamp, and accepted alerts
with equal keys are separated by at least `cooldownDuration`, in arena
(= acceptance) order. -/
def AInv (am : AlertManager) : Prop :=
  (∀ a ∈ am.arena,
    ∃ c, lookupA (alertKey a.alert_type a.process_name) am.alert_cooldowns = some c ∧
      a.timestamp + cooldownDuration ≤ c) ∧
  (∀ i j a b, i < j → am.arena.get? i = some a → am.arena.get? j = some b →
    alertKey a.alert_type a.process_name = alertKey b.alert_type b.process_name →
    a.timestamp + cooldownDuration ≤ b.timestamp)

/-- A one-alert manager: the state after one accepted `create_alert`. -/
def amOneAlert : AlertManager :=
  (createAlert AlertManager.init AlertType.high_cpu AlertLevel.warning
    "t" "m" (some "p") [] 0).2

/-- A `high_cpu` threshold violation for process `"p"` at time `now`. -/
def highCpuCall (now : Int) : ACall :=
  { alert_type := AlertType.high_cpu, level := AlertLevel.warning, title := "t",
    message := "m", process_name := some "p", metadata := [], now := now }

/-- Same-key create calls at 0 s, 100 s (inside cooldown) and 300 s. -/
def alertTraceW : List ACall := [highCpuCall 0, highCpuCall 100, highCpuCall 300]

/-- The registry record of `"p"` inside `pmRunningP`. -/
def procRunningP : ManagedProcess :=
  { config := cfgP, status := ProcessStatus.running, pid := some 42, started_at := some 0 }

/-- Concrete raw `psutil` readings for witnesses. -/
def rawW : RawSample :=
  { cpu_percent := 10, memory_percent := 20, memory_mb := 100, open_files := 3,
    connections := [], threads := 2 }

/-- Supervisor trace for the pid/status counterexample: a graceful stop whose
signalling raises, followed by a spawn failure. -/
def pmTraceStale : List POp :=
  [POp.add cfgP, POp.start "p" (some 42) 0, POp.stop "p" false true,
   POp.start "p" none 5]

/-! ### Dictionary lemmas -/

@[simp] theorem setVal_same {α : Type} (f : String → α) (k : String) (v : α) :
    setVal f k v k = v := by simp [setVal]

theorem setVal_ne {α : Type} (f : String → α) (k : String) (v : α) (k' : String)
    (h : k' ≠ k) : setVal f k v k' = f k' := by simp [setVal, h]

theorem lookupA_updateA_same {β : Type} (k : String) (f : β → β) (l : List (String × β)) :
    lookupA k (updateA k f l) = (lookupA k l).map f := by
  induction l with
  | nil => rfl
  | cons e l ih =>
    obtain ⟨a, b⟩ := e
    by_cases h : a = k
    · subst h; simp [lookupA, updateA]
    · simp [lookupA, updateA, h, ih]

theorem lookupA_updateA_ne {β : Type} (k k' : String) (f : β → β) (l : List (String × β))
    (h : k' ≠ k) : lookupA k' (updateA k f l) = lookupA k' l := by
  induction l with
  | nil => rfl
  | cons e l ih =>
    obtain ⟨a, b⟩ := e
    by_cases he : a = k
    · subst he
      simp [lookupA, updateA, Ne.symm h, ih]
    · simp [lookupA, updateA, he, ih]

theorem lookupA_concat_self {β : Type} (k : String) (v : β) (l : List (String × β))
    (h : lookupA k l = none) : lookupA k (l ++ [(k, v)]) = some v := by
  induction l with
  | nil => simp [lookupA]
  | cons e l ih =>
    obtain ⟨a, b⟩ := e
    by_cases he : a = k
    · simp [lookupA, he] at h
    · simp only [lookupA, he, if_false, List.cons_append] at h ⊢
      exact ih h

theorem lookupA_concat_ne {β : Type} (k k' : String) (v : β) (l : List (String × β))
    (h : k' ≠ k) : lookupA k' (l ++ [(k, v)]) = lookupA k' l := by
  induction l with
  | nil => simp [lookupA, Ne.symm h]
  | cons e l ih =>
    obtain ⟨a, b⟩ := e
    by_cases he : a = k' <;> simp [lookupA, he, ih]

theorem lookupA_setA_same {β : Type} (k : String) (v : β) (l : List (String × β)) :
    lookupA k (setA k v l) = some v := by
  unfold setA
  by_cases h : (lookupA k l).isSome
  · rw [if_pos h, lookupA_updateA_same]
    cases hl : lookupA k l with
    | none => rw [hl] at h; simp at h
    | some w => simp
  · rw [if_neg h]
    exact lookupA_concat_self k v l (by simpa using h)

theorem lookupA_setA_ne {β : Type} (k k' : String) (v : β) (l : List (String × β))
    (h : k' ≠ k) : lookupA k' (setA k v l) = lookupA k' l := by
  unfold setA
  by_cases hs : (lookupA k l).isSome
  · rw [if_pos hs, lookupA_updateA_ne _ _ _ _ h]
  · rw [if_neg hs]
    exact lookupA_concat_ne k k' v l h

/-! ### Claim theorems -/

/-- C10: `start_process` on a process whose status is already RUNNING returns
success and leaves the whole manager state — registry entry (pid, status,
`started_at`, `restart_count`) and subprocess handle map — unchanged. -/
theorem start_on_running_is_noop (pm : ProcessManager) (name : String)
    (spawn : Option Nat) (now : Int) (p : ManagedProcess)
    (hp : lookupA name pm.processes = some p)
    (hr : p.status = ProcessStatus.running) :
    startProcess pm name spawn now = (true, pm) := by
  unfold startProcess
  rw [hp]
  simp [hr]

/-- Witness for C10 at a concrete RUNNING process. -/
theorem start_on_running_is_noop_witness :
    startProcess pmRunningP "p" (some 5) 3 = (true, pmRunningP) :=
  start_on_running_is_noop pmRunningP "p" (some 5) 3
    { config := cfgP, status := ProcessStatus.running, pid := some 42,
      started_at := some 0 }
    (by decide) (by decide)

/-- C5: `record_crash` emits the policy's `action_on_threshold` when exactly
`max_crashes` events of the (post-append) ring lie inside the policy window,
and emits `restart` when exactly `max_crashes - 1` do. -/
theorem recordCrash_threshold_boundary (cm : CrashManager) (name reason : String)
    (ec : Option Int) (now : Int) :
    (((dequeAppend 100 (cm.crash_history name)
          { timestamp := now, process_name := name, crash_reason := reason,
            exit_code := ec }).filter
        (fun c => decide (c.timestamp >
          now - (cm.getPolicy name).time_window_minutes * 60))).length =
        (cm.getPolicy name).max_crashes →
      (recordCrash cm name reason ec now).1 = (cm.getPolicy name).action_on_threshold) ∧
    (((dequeAppend 100 (cm.crash_history name)
          { timestamp := now, process_name := name, crash_reason := reason,
            exit_code := ec }).filter
        (fun c => decide (c.timestamp >
          now - (cm.getPolicy name).time_window_minutes * 60))).length + 1 =
        (cm.getPolicy name).max_crashes →
      (recordCrash cm name reason ec now).1 = CrashAction.restart) := by
  have key : (recordCrash cm name reason ec now).1 =
      (if ((dequeAppend 100 (cm.crash_history name)
            { timestamp := now, process_name := name, crash_reason := reason,
              exit_code := ec }).filter
          (fun c => decide (c.timestamp >
            now - (cm.getPolicy name).time_window_minutes * 60))).length ≥
          (cm.getPolicy name).max_crashes
        then (cm.getPolicy name).action_on_threshold
        else CrashAction.restart) := by
    simp only [recordCrash, evaluateCrashPolicy, CrashManager.getPolicy, setVal_same]
  constructor
  · intro hlen
    rw [key, if_pos (by omega)]
  · intro hlen
    rw [key, if_neg (by omega)]

/-- Witness for C5: under a `max_crashes = 1` disable policy the first crash
already emits `disable`; under the default policy (`max_crashes = 5`) the
first crash emits `restart`. -/
theorem recordCrash_threshold_boundary_witness :
    (recordCrash (setCrashPolicy CrashManager.init "svc" dPolicy) "svc" "boom" none 0).1 =
      CrashAction.disable ∧
    (recordCrash (setCrashPolicy CrashManager.init "svc"
        { dPolicy with max_crashes := 2 }) "svc" "boom" none 0).1 =
      CrashAction.restart :=
  ⟨(recordCrash_threshold_boundary (setCrashPolicy CrashManager.init "svc" dPolicy)
      "svc" "boom" none 0).1 (by decide),
   (recordCrash_threshold_boundary (setCrashPolicy CrashManager.init "svc"
      { dPolicy with max_crashes := 2 }) "svc" "boom" none 0).2 (by decide)⟩

/-- C6 (amended): `can_restart_process` returns `(false, _)` iff the name is
disabled or quarantined with expiry strictly later than `now`; when the name
is NOT disabled, an expired quarantine (expiry ≤ now, equality included) is
removed and the call returns `(true, _)`; when the name is also disabled, the
call answers at the disabled check and leaves the state — including the
expired quarantine entry — unchanged. -/
theorem canRestart_characterization (cm : CrashManager) (name : String) (now : Int) :
    ((canRestartProcess cm name now).1.1 = false ↔
      ((cm.disabled_processes name).isSome = true ∨
        ∃ u, cm.quarantined_processes name = some u ∧ now < u)) ∧
    (cm.disabled_processes name = none →
      ∀ u, cm.quarantined_processes name = some u → u ≤ now →
        (canRestartProcess cm name now).1.1 = true ∧
        (canRestartProcess cm name now).2.quarantined_processes name = none) ∧
    ((cm.disabled_processes name).isSome = true →
      (canRestartProcess cm name now).2 = cm) := by
  refine ⟨?_, ?_, ?_⟩
  · cases hd : cm.disabled_processes name with
    | some t => simp [canRestartProcess, hd]
    | none =>
      cases hq : cm.quarantined_processes name with
      | some u =>
        by_cases hlt : now < u
        · simp [canRestartProcess, hd, hq, hlt]
        · simp [canRestartProcess, hd, hq, hlt]
      | none => simp [canRestartProcess, hd, hq]
  · intro hd u hq hle
    have hlt : ¬ now < u := by omega
    simp [canRestartProcess, hd, hq, hlt]
  · intro hd
    cases hds : cm.disabled_processes name with
    | some t => simp [canRestartProcess, hds]
    | none => rw [hds] at hd; simp at hd

/-- Witness for C6 (amended): a non-disabled process whose quarantine expiry
equals `now` is released and the entry dropped. -/
theorem canRestart_characterization_witness :
    (canRestartProcess (runCM [CMOp.setPolicy "svc" qPolicy,
        CMOp.record "svc" "crash" none 0]) "svc" 3600).1.1 = true ∧
    (canRestartProcess (runCM [CMOp.setPolicy "svc" qPolicy,
        CMOp.record "svc" "crash" none 0]) "svc" 3600).2.quarantined_processes "svc" =
      none :=
  (canRestart_characterization (runCM [CMOp.setPolicy "svc" qPolicy,
      CMOp.record "svc" "crash" none 0]) "svc" 3600).2.1 (by decide) 3600
    (by decide) (by decide)

/-- C6 counterexample: in the reachable state where `"svc"` is both disabled
and holds an expired quarantine (`3600 ≤ 4000`), `can_restart_process`
returns `false` and does NOT remove the expired entry — the claim's
"removed … and the call then returns `(true, _)`" fails. -/
theorem canRestart_expired_not_removed_counterexample :
    ((runCM cmTraceBoth).quarantined_processes "svc" = some 3600) ∧
    ((3600 : Int) ≤ 4000) ∧
    (canRestartProcess (runCM cmTraceBoth) "svc" 4000).1.1 = false ∧
    (canRestartProcess (runCM cmTraceBoth) "svc" 4000).2.quarantined_processes "svc" =
      some 3600 := by
  refine ⟨by decide, by decide, by decide, by decide⟩

/-- C2 counterexample: the four-call trace `cmTraceBoth` (quarantine policy,
crash, switch to disable policy, crash) reaches a state where `"svc"` is in
the disabled set AND in the quarantined set simultaneously. -/
theorem disabled_quarantined_overlap_counterexample :
    ((runCM cmTraceBoth).disabled_processes "svc").isSome = true ∧
    ((runCM cmTraceBoth).quarantined_processes "svc").isSome = true := by
  refine ⟨by decide, by decide⟩

/-- Any single crash action leaves the process's quarantine entry alone, or
leaves its disabled entry alone (the two are never both written). -/
theorem executeCrashAction_frame (cm : CrashManager) (name : String)
    (action : CrashAction) (now : Int) :
    (executeCrashAction cm name action now).quarantined_processes name =
        cm.quarantined_processes name ∨
    (executeCrashAction cm name action now).disabled_processes name =
        cm.disabled_processes name := by
  cases action with
  | restart => exact Or.inl rfl
  | disable => exact Or.inl rfl
  | kill_dependencies => exact Or.inl rfl
  | quarantine => exact Or.inr rfl

/-- `record_crash` leaves the quarantine entry or the disabled entry alone. -/
theorem recordCrash_frame (cm : CrashManager) (name reason : String)
    (ec : Option Int) (now : Int) :
    ((recordCrash cm name reason ec now).2.quarantined_processes name =
        cm.quarantined_processes name) ∨
    ((recordCrash cm name reason ec now).2.disabled_processes name =
        cm.disabled_processes name) := by
  simp only [recordCrash]
  exact executeCrashAction_frame _ name _ now

/-- C2 (amended): a single `record_crash` call never puts a process in both
sets — starting outside both, each crash action adds the name to at most one
of disabled/quarantined.  (Across several calls the sets can overlap, e.g.
after a policy change between crashes, as the counterexample shows.) -/
theorem recordCrash_single_call_disjoint (cm : CrashManager) (name reason : String)
    (ec : Option Int) (now : Int)
    (hd : cm.disabled_processes name = none)
    (hq : cm.quarantined_processes name = none) :
    ¬ (((recordCrash cm name reason ec now).2.disabled_processes name).isSome = true ∧
       ((recordCrash cm name reason ec now).2.quarantined_processes name).isSome = true) := by
  rintro ⟨hds, hqs⟩
  rcases recordCrash_frame cm name reason ec now with h | h
  · rw [h, hq] at hqs; simp at hqs
  · rw [h, hd] at hds; simp at hds

/-- Witness for C2 (amended) at a concrete first crash under the default
policy: afterwards the process is in neither set, so certainly not in both. -/
theorem recordCrash_single_call_disjoint_witness :
    ¬ (((recordCrash CrashManager.init "svc" "boom" none 0).2.disabled_processes
          "svc").isSome = true ∧
       ((recordCrash CrashManager.init "svc" "boom" none 0).2.quarantined_processes
          "svc").isSome = true) :=
  recordCrash_single_call_disjoint CrashManager.init "svc" "boom" none 0 rfl rfl

/-- C4: evaluation of the code at the failing input.  `intelligent_restart`
on a registered FAILED process with an empty crash ring and an open gate
returns success — and leaves a synthetic `"restart_requested"` crash event in
the Crash Policy Engine's ring, where the claim (and §9 of the spec) demands
the ring stay unchanged across a restart. -/
theorem intelligentRestart_records_synthetic_crash :
    (epmFreshSvc.crash_manager.crash_history "svc" = []) ∧
    (intelligentRestart epmFreshSvc "svc" { stopRaises := false, spawn := some 9 }
        "" 10).1 = true ∧
    (((intelligentRestart epmFreshSvc "svc" { stopRaises := false, spawn := some 9 }
        "" 10).2.crash_manager.crash_history "svc").map CrashEvent.crash_reason =
      ["restart_requested"]) := by
  refine ⟨by decide, by decide, by decide⟩

/-- C1 counterexample: `"svc"` is FAILED with `auto_restart` on and
`restart_count 0 < max_restarts 5`, the Crash Policy Engine gate says no
(`can_restart` is `false`: the process is disabled) — yet the auto-restart
sweep restarts it (status RUNNING, `restart_count` bumped to 1). -/
theorem sweep_restarts_disabled_process_counterexample :
    ((lookupA "svc" epmDisabledSvc.base.processes).map
        (fun p => (p.status, p.config.auto_restart, p.restart_count)) =
      some (ProcessStatus.failed, true, 0)) ∧
    (canRestartProcess epmDisabledSvc.crash_manager "svc" 10).1.1 = false ∧
    ((lookupA "svc" (autoRestartFailedProcessesE epmDisabledSvc envSpawn7 10).base.processes).map
        (fun p => (p.status, p.restart_count)) =
      some (ProcessStatus.running, 1)) := by
  refine ⟨by decide, by decide, by decide⟩

/-! Frame lemmas: each supervisor operation writes only its own registry key. -/

/-- `stop_process` touches no registry entry but its own. -/
theorem stopProcess_frame (pm : ProcessManager) (m : String) (force stopRaises : Bool)
    (n : String) (h : n ≠ m) :
    lookupA n ((stopProcess pm m force stopRaises).2).processes =
      lookupA n pm.processes := by
  unfold stopProcess
  cases lookupA m pm.processes with
  | none => rfl
  | some p =>
    by_cases hr : p.status ≠ ProcessStatus.running
    · simp [hr]
    · by_cases hh : m ∈ pm.subprocess_handles ∧ stopRaises = true
      · simp [hr, hh, lookupA_updateA_ne _ _ _ _ h]
      · simp only [hr, if_false]
        rw [if_neg (by simpa using hh)]
        simp [lookupA_updateA_ne _ _ _ _ h]

/-- `start_process` touches no registry entry but its own. -/
theorem startProcess_frame (pm : ProcessManager) (m : String) (spawn : Option Nat)
    (now : Int) (n : String) (h : n ≠ m) :
    lookupA n ((startProcess pm m spawn now).2).processes =
      lookupA n pm.processes := by
  unfold startProcess
  cases lookupA m pm.processes with
  | none => rfl
  | some p =>
    by_cases hr : p.status = ProcessStatus.running
    · simp [hr]
    · cases spawn with
      | some newPid => simp [hr, lookupA_updateA_ne _ _ _ _ h]
      | none => simp [hr, lookupA_updateA_ne _ _ _ _ h]

/-- `restart_process` touches no registry entry but its own. -/
theorem restartProcess_frame (pm : ProcessManager) (m : String) (stopRaises : Bool)
    (spawn : Option Nat) (now : Int) (n : String) (h : n ≠ m) :
    lookupA n ((restartProcess pm m stopRaises spawn now).2).processes =
      lookupA n pm.processes := by
  unfold restartProcess
  cases lookupA m pm.processes with
  | none => rfl
  | some p =>
    simp only []
    by_cases hr : p.status = ProcessStatus.running
    · rw [if_pos hr]
      rcases hs : stopProcess pm m false stopRaises with ⟨ok, pm1⟩
      have hframe1 : lookupA n pm1.processes = lookupA n pm.processes := by
        have := stopProcess_frame pm m false stopRaises n h
        rw [hs] at this
        exact this
      cases ok with
      | false => simpa using hframe1
      | true =>
        rcases hst : startProcess pm1 m spawn now with ⟨ok2, pm2⟩
        have hframe2 : lookupA n pm2.processes = lookupA n pm1.processes := by
          have := startProcess_frame pm1 m spawn now n h
          rw [hst] at this
          exact this
        cases ok2 with
        | false => simpa using hframe2.trans hframe1
        | true =>
          simpa [lookupA_updateA_ne _ _ _ _ h] using hframe2.trans hframe1
    · rw [if_neg hr]
      rcases hst : startProcess pm m spawn now with ⟨ok2, pm2⟩
      have hframe2 : lookupA n pm2.processes = lookupA n pm.processes := by
        have := startProcess_frame pm m spawn now n h
        rw [hst] at this
        exact this
      cases ok2 with
      | false => simpa using hframe2
      | true =>
        simpa [lookupA_updateA_ne _ _ _ _ h] using hframe2

theorem updateA_updateA {β : Type} (k : String) (f g : β → β) (l : List (String × β)) :
    updateA k f (updateA k g l) = updateA k (fun x => f (g x)) l := by
  induction l with
  | nil => rfl
  | cons e l ih =>
    obtain ⟨a, b⟩ := e
    by_cases h : a = k <;> simp [updateA, h, ih]

theorem mem_keys_of_lookupA {β : Type} (k : String) (l : List (String × β)) (v : β)
    (h : lookupA k l = some v) : k ∈ l.map Prod.fst := by
  induction l with
  | nil => simp [lookupA] at h
  | cons e l ih =>
    obtain ⟨a, b⟩ := e
    by_cases ha : a = k
    · subst ha; simp
    · simp only [lookupA, ha, if_false] at h
      simpa using Or.inr (by simpa using ih h)

/-- `restart_process` on a FAILED record with a successful spawn: the stop
phase is skipped, the start succeeds, and the record is rewritten to RUNNING
with the new pid, a fresh `started_at`, `restart_count + 1` and
`last_restart = now`. -/
theorem restartProcess_eligible (pm : ProcessManager) (n : String) (stopRaises : Bool)
    (pid : Nat) (now : Int) (p : ManagedProcess)
    (hp : lookupA n pm.processes = some p)
    (hf : p.status = ProcessStatus.failed) :
    (restartProcess pm n stopRaises (some pid) now).1 = true ∧
    (restartProcess pm n stopRaises (some pid) now).2.processes =
      updateA n (fun q =>
        { q with pid := some pid, started_at := some now,
                 status := ProcessStatus.running,
                 restart_count := q.restart_count + 1, last_restart := some now })
        pm.processes := by
  have hnr : ¬ p.status = ProcessStatus.running := by rw [hf]; intro hcon; cases hcon
  refine ⟨?_, ?_⟩
  · simp [restartProcess, startProcess, hp, hnr]
  · simp [restartProcess, startProcess, hp, hnr, updateA_updateA]

/-- The sweep leaves untouched every registry entry whose name it does not
visit. -/
theorem sweepGo_frame (env : String → RestartEnv) (now : Int) (n : String) :
    ∀ names : List String, ∀ pm : ProcessManager, n ∉ names →
      lookupA n (sweepGo env now pm names).processes = lookupA n pm.processes := by
  intro names
  induction names with
  | nil => intro pm _; rfl
  | cons m ns ih =>
    intro pm hn
    have hnm : n ≠ m := fun hh => hn (by rw [hh]; exact List.mem_cons_self m ns)
    have hn' : n ∉ ns := fun hh => hn (List.mem_cons_of_mem m hh)
    unfold sweepGo
    simp only []
    rw [ih _ hn']
    cases lookupA m pm.processes with
    | none => rfl
    | some q =>
      by_cases hc : (q.status = ProcessStatus.failed ∧ q.config.auto_restart = true ∧
          q.restart_count < q.config.max_restarts)
      · simp only [if_pos hc]
        exact restartProcess_frame pm m (env m).stopRaises (env m).spawn now n hnm
      · simp only [if_neg hc]

/-- Walking the sweep's name list: once it reaches an eligible FAILED process
(whatever the Crash Policy Engine thinks of it), the record is restarted. -/
theorem sweepGo_restarts_eligible (env : String → RestartEnv) (now : Int) (n : String)
    (pid : Nat) (hspawn : (env n).spawn = some pid) (post : List String)
    (hpost : n ∉ post) :
    ∀ pre : List String, n ∉ pre → ∀ pm : ProcessManager, ∀ p : ManagedProcess,
      lookupA n pm.processes = some p → p.status = ProcessStatus.failed →
      p.config.auto_restart = true → p.restart_count < p.config.max_restarts →
      lookupA n (sweepGo env now pm (pre ++ n :: post)).processes =
        some { p with pid := some pid, started_at := some now,
                      status := ProcessStatus.running,
                      restart_count := p.restart_count + 1,
                      last_restart := some now } := by
  intro pre
  induction pre with
  | nil =>
    intro _ pm p hp hf ha hrc
    simp only [List.nil_append]
    unfold sweepGo
    simp only [hp]
    rw [if_pos ⟨hf, ha, hrc⟩, hspawn]
    rw [sweepGo_frame env now n post _ hpost]
    rw [(restartProcess_eligible pm n (env n).stopRaises pid now p hp hf).2]
    rw [lookupA_updateA_same, hp]
    rfl
  | cons m pre ih =>
    intro hnpre pm p hp hf ha hrc
    have hnm : n ≠ m := fun hh => hnpre (by rw [hh]; exact List.mem_cons_self m pre)
    have hn' : n ∉ pre := fun hh => hnpre (List.mem_cons_of_mem m hh)
    simp only [List.cons_append]
    unfold sweepGo
    simp only []
    cases hm : lookupA m pm.processes with
    | none => exact ih hn' pm p hp hf ha hrc
    | some q =>
      by_cases hc : (q.status = ProcessStatus.failed ∧ q.config.auto_restart = true ∧
          q.restart_count < q.config.max_restarts)
      · simp only [if_pos hc]
        have hfr := restartProcess_frame pm m (env m).stopRaises (env m).spawn now n hnm
        exact ih hn' _ p (hfr.trans hp) hf ha hrc
      · simp only [if_neg hc]
        exact ih hn' pm p hp hf ha hrc

/-- C1 (amended): the auto-restart sweep restarts every registered FAILED
process with `auto_restart` set and `restart_count < max_restarts`
unconditionally — it never consults the Crash Policy Engine (no hypothesis
about the disabled/quarantined sets is needed) and leaves the engine's state
untouched; only `intelligent_restart` performs the `can_restart` gating. -/
theorem autoRestart_sweep_ignores_gate (epm : EnhancedProcessManager) (name : String)
    (env : String → RestartEnv) (now : Int) (pid : Nat) (p : ManagedProcess)
    (hnodup : (epm.base.processes.map Prod.fst).Nodup)
    (hp : lookupA name epm.base.processes = some p)
    (hf : p.status = ProcessStatus.failed)
    (ha : p.config.auto_restart = true)
    (hrc : p.restart_count < p.config.max_restarts)
    (hspawn : (env name).spawn = some pid) :
    (autoRestartFailedProcessesE epm env now).crash_manager = epm.crash_manager ∧
    lookupA name (autoRestartFailedProcessesE epm env now).base.processes =
      some { p with pid := some pid, started_at := some now,
                    status := ProcessStatus.running,
                    restart_count := p.restart_count + 1,
                    last_restart := some now } := by
  refine ⟨rfl, ?_⟩
  have hmem : name ∈ epm.base.processes.map Prod.fst :=
    mem_keys_of_lookupA name epm.base.processes p hp
  obtain ⟨pre, post, hsplit⟩ := List.append_of_mem hmem
  rw [hsplit] at hnodup
  have hnotmem : name ∉ pre ++ post := by
    have := (List.nodup_middle).mp hnodup
    exact (List.nodup_cons.mp this).1
  have hpre : name ∉ pre := fun hh => hnotmem (List.mem_append_left _ hh)
  have hpost : name ∉ post := fun hh => hnotmem (List.mem_append_right _ hh)
  show lookupA name (sweepGo env now epm.base (epm.base.processes.map Prod.fst)).processes = _
  rw [hsplit]
  exact sweepGo_restarts_eligible env now name pid hspawn post hpost pre hpre
    epm.base p hp hf ha hrc

/-- Witness for C1 (amended) on the concrete disabled-but-swept state. -/
theorem autoRestart_sweep_ignores_gate_witness :
    (autoRestartFailedProcessesE epmDisabledSvc envSpawn7 10).crash_manager =
      epmDisabledSvc.crash_manager ∧
    lookupA "svc" (autoRestartFailedProcessesE epmDisabledSvc envSpawn7 10).base.processes =
      some { config := cfgSvc, pid := some 7, started_at := some 10,
                    status := ProcessStatus.running, restart_count := 1,
                    last_restart := some 10, metrics_history := [] } := by
  have h := autoRestart_sweep_ignores_gate epmDisabledSvc "svc" envSpawn7 10 7
    { config := cfgSvc, status := ProcessStatus.failed }
    (by decide) (by decide) (by decide) (by decide) (by decide) (by decide)
  simpa using h


theorem appendCompact_length_le (h : List ProcessMetrics) (m : ProcessMetrics)
    (hlen : h.length ≤ 1000) : (appendCompact h m).length ≤ 1000 := by
  unfold appendCompact
  by_cases hgt : (h ++ [m]).length > 1000
  · rw [if_pos hgt]
    simp only [List.length_drop]
    omega
  · rw [if_neg hgt]
    omega

theorem appendCompact_getLast (h : List ProcessMetrics) (m : ProcessMetrics) :
    (appendCompact h m).getLast? = some m := by
  unfold appendCompact
  by_cases hgt : (h ++ [m]).length > 1000
  · rw [if_pos hgt]
    have hk : (h ++ [m]).length - 500 ≤ h.length := by
      simp only [List.length_append, List.length_singleton] at hgt ⊢
      omega
    rw [List.drop_append_of_le_length hk]
    exact List.getLast?_concat _
  · rw [if_neg hgt]
    exact List.getLast?_concat _

/-- C8: after every completed `sample_metrics` call the process's metrics
history has at most 1000 entries; on the appending path the history becomes
`appendCompact old newSample` — in particular, when the append would exceed
1000 entries the history is compacted to exactly the 500 newest entries with
the oldest dropped, and the freshly appended sample is always at the tail. -/
theorem sample_metrics_history_bounds (pm : ProcessManager) (name : String)
    (raw : Option RawSample) (now : Int) (p : ManagedProcess)
    (hp : lookupA name pm.processes = some p)
    (hlen : p.metrics_history.length ≤ 1000) :
    (∀ q, lookupA name (getProcessMetrics pm name raw now).2.processes = some q →
        q.metrics_history.length ≤ 1000) ∧
    (∀ r, pidTruthy p.pid = true → raw = some r →
      lookupA name (getProcessMetrics pm name raw now).2.processes =
        some { p with metrics_history :=
                        appendCompact p.metrics_history (liveSample p r now) } ∧
      (appendCompact p.metrics_history (liveSample p r now)).getLast? =
        some (liveSample p r now) ∧
      (p.metrics_history.length = 1000 →
        appendCompact p.metrics_history (liveSample p r now) =
          (p.metrics_history ++ [liveSample p r now]).drop 501 ∧
        (appendCompact p.metrics_history (liveSample p r now)).length = 500)) := by
  constructor
  · intro q hq
    unfold getProcessMetrics at hq
    rw [hp] at hq
    simp only [] at hq
    by_cases htr : pidTruthy p.pid
    · rw [if_neg (by simp [htr])] at hq
      cases raw with
      | none =>
        simp only [] at hq
        rw [lookupA_updateA_same, hp] at hq
        cases hq
        simpa using hlen
      | some r =>
        simp only [] at hq
        rw [lookupA_updateA_same, hp] at hq
        cases hq
        simpa using appendCompact_length_le _ _ hlen
    · rw [if_pos (by simpa using htr)] at hq
      rw [hp] at hq
      cases hq
      exact hlen
  · intro r htr hraw
    subst hraw
    refine ⟨?_, appendCompact_getLast _ _, ?_⟩
    · unfold getProcessMetrics
      rw [hp]
      simp only []
      rw [if_neg (by simp [htr])]
      simp only []
      rw [lookupA_updateA_same, hp]
      rfl
    · intro hfull
      have hgt : (p.metrics_history ++ [liveSample p r now]).length > 1000 := by
        simp [hfull]
      constructor
      · unfold appendCompact
        rw [if_pos hgt]
        simp [hfull]
      · unfold appendCompact
        rw [if_pos hgt]
        simp only [List.length_drop]
        simp [hfull]

/-- Witness for C8 on a concrete one-element history. -/
theorem sample_metrics_history_bounds_witness :
    (∀ q, lookupA "p" (getProcessMetrics pmRunningP "p" (some rawW) 1).2.processes =
        some q → q.metrics_history.length ≤ 1000) ∧
    lookupA "p" (getProcessMetrics pmRunningP "p" (some rawW) 1).2.processes =
      some { config := cfgP, status := ProcessStatus.running, pid := some 42,
                    started_at := some 0, restart_count := 0, last_restart := none,
                    metrics_history := [liveSample procRunningP rawW 1] } := by
  have h := sample_metrics_history_bounds pmRunningP "p" (some rawW) 1
    procRunningP (by decide) (by decide)
  refine ⟨h.1, ?_⟩
  have h2 := (h.2 rawW (by decide) rfl).1
  rw [h2]
  rfl


theorem lookupA_updateA_forall {β : Type} (P : String → β → Prop) (k : String)
    (f : β → β) (l : List (String × β))
    (hall : ∀ n q, lookupA n l = some q → P n q)
    (hk : ∀ q, lookupA k l = some q → P k (f q)) :
    ∀ n q, lookupA n (updateA k f l) = some q → P n q := by
  intro n q hq
  by_cases h : n = k
  · subst h
    rw [lookupA_updateA_same] at hq
    cases hl : lookupA n l with
    | none => rw [hl] at hq; cases hq
    | some w => rw [hl] at hq; cases hq; exact hk w hl
  · rw [lookupA_updateA_ne _ _ _ _ h] at hq
    exact hall n q hq

theorem startProcess_preserves_inv (pm : ProcessManager) (name : String)
    (spawn : Option Nat) (now : Int) (hinv : PMInv pm) :
    PMInv (startProcess pm name spawn now).2 := by
  unfold startProcess
  cases hp : lookupA name pm.processes with
  | none => exact hinv
  | some p =>
    by_cases hr : p.status = ProcessStatus.running
    · simpa [hr] using hinv
    · cases spawn with
      | some newPid =>
        simp only [if_neg hr]
        intro n q hq
        refine lookupA_updateA_forall _ name _ pm.processes hinv ?_ n q hq
        intro w _
        refine ⟨?_, ?_⟩
        · constructor
          · intro _; rfl
          · intro _; simp
        · intro hcon; cases hcon
      | none =>
        simp only [if_neg hr]
        intro n q hq
        refine lookupA_updateA_forall _ name _ pm.processes hinv ?_ n q hq
        intro w hw
        rcases hinv name w hw with ⟨hiff, hns⟩
        have hwp : w = p := by rw [hw] at hp; cases hp; rfl
        have hpid : w.pid = none := by
          by_contra hne
          exact hr (hwp ▸ hiff.mp hne)
        refine ⟨?_, ?_⟩
        · constructor
          · intro hne; exact absurd hpid hne
          · intro hcon; cases hcon
        · intro hcon; cases hcon

theorem stopProcess_preserves_inv (pm : ProcessManager) (name : String)
    (force : Bool) (hinv : PMInv pm) :
    PMInv (stopProcess pm name force false).2 := by
  unfold stopProcess
  cases hp : lookupA name pm.processes with
  | none => exact hinv
  | some p =>
    by_cases hr : p.status ≠ ProcessStatus.running
    · simpa [hr] using hinv
    · simp only [if_neg hr]
      rw [if_neg (by simp)]
      intro n q hq
      refine lookupA_updateA_forall _ name _ pm.processes hinv ?_ n q hq
      intro w _
      refine ⟨?_, ?_⟩
      · constructor
        · intro hne; exact absurd rfl hne
        · intro hcon; cases hcon
      · intro hcon; cases hcon

theorem restartProcess_preserves_inv (pm : ProcessManager) (name : String)
    (spawn : Option Nat) (now : Int) (hinv : PMInv pm) :
    PMInv (restartProcess pm name false spawn now).2 := by
  unfold restartProcess
  cases hp : lookupA name pm.processes with
  | none => exact hinv
  | some p =>
    simp only []
    by_cases hr : p.status = ProcessStatus.running
    all_goals simp only [if_pos, if_neg, hr, reduceIte]
    · rcases hs : stopProcess pm name false false with ⟨ok, pm1⟩
      have hinv1 : PMInv pm1 := by
        have := stopProcess_preserves_inv pm name false hinv
        rw [hs] at this
        exact this
      cases ok with
      | false => simpa using hinv1
      | true =>
        simp only [Bool.true_eq_false, reduceIte]
        rcases hst : startProcess pm1 name spawn now with ⟨ok2, pm2⟩
        have hinv2 : PMInv pm2 := by
          have := startProcess_preserves_inv pm1 name spawn now hinv1
          rw [hst] at this
          exact this
        cases ok2 with
        | false => simpa using hinv2
        | true =>
          simp only [reduceIte]
          intro n q hq
          refine lookupA_updateA_forall _ name _ pm2.processes hinv2 ?_ n q hq
          intro w hw
          rcases hinv2 name w hw with ⟨hiff, hns⟩
          exact ⟨hiff, hns⟩
    · rcases hst : startProcess pm name spawn now with ⟨ok2, pm2⟩
      have hinv2 : PMInv pm2 := by
        have := startProcess_preserves_inv pm name spawn now hinv
        rw [hst] at this
        exact this
      cases ok2 with
      | false => simpa using hinv2
      | true =>
        simp only [reduceIte]
        intro n q hq
        refine lookupA_updateA_forall _ name _ pm2.processes hinv2 ?_ n q hq
        intro w hw
        exact hinv2 name w hw

theorem getProcessMetrics_preserves_inv (pm : ProcessManager) (name : String)
    (raw : Option RawSample) (now : Int) (hinv : PMInv pm) :
    PMInv (getProcessMetrics pm name raw now).2 := by
  unfold getProcessMetrics
  cases hp : lookupA name pm.processes with
  | none => exact hinv
  | some p =>
    simp only []
    by_cases htr : pidTruthy p.pid
    · simp only [htr, Bool.not_true]
      rw [if_neg (by simp)]
      cases raw with
      | some r =>
        intro n q hq
        refine lookupA_updateA_forall _ name _ pm.processes hinv ?_ n q hq
        intro w hw
        exact hinv name w hw
      | none =>
        intro n q hq
        refine lookupA_updateA_forall _ name _ pm.processes hinv ?_ n q hq
        intro w _
        refine ⟨?_, ?_⟩
        · constructor
          · intro hne; exact absurd rfl hne
          · intro hcon; cases hcon
        · intro hcon; cases hcon
    · have : ¬ pidTruthy p.pid = true := htr
      rw [if_pos (by simpa using this)]
      exact hinv

theorem checkProcessHealth_preserves_inv (pm : ProcessManager) (name : String)
    (poll : Option Int) (hinv : PMInv pm) :
    PMInv (checkProcessHealth pm name poll).2 := by
  unfold checkProcessHealth
  cases hp : lookupA name pm.processes with
  | none => exact hinv
  | some p =>
    simp only []
    by_cases hc : (name ∈ pm.subprocess_handles ∧ poll.isSome = true)
    · rw [if_pos hc]
      intro n q hq
      refine lookupA_updateA_forall _ name _ pm.processes hinv ?_ n q hq
      intro w _
      refine ⟨?_, ?_⟩
      · constructor
        · intro hne; exact absurd rfl hne
        · intro hcon; cases hcon
      · intro hcon; cases hcon
    · rw [if_neg hc]
      exact hinv

theorem addProcess_preserves_inv (pm : ProcessManager) (config : ProcessConfig)
    (hinv : PMInv pm) : PMInv (addProcess pm config).2 := by
  unfold addProcess
  by_cases hs : (lookupA config.name pm.processes).isSome
  · rw [if_pos hs]; exact hinv
  · rw [if_neg hs]
    intro n q hq
    by_cases hn : n = config.name
    · subst hn
      rw [lookupA_concat_self _ _ _ (by simpa using hs)] at hq
      cases hq
      refine ⟨?_, ?_⟩
      · constructor
        · intro hne; exact absurd rfl hne
        · intro hcon; cases hcon
      · intro hcon; cases hcon
    · rw [lookupA_concat_ne _ _ _ _ hn] at hq
      exact hinv n q hq

theorem applyPM_preserves_inv (pm : ProcessManager) (op : POp) (hok : op.stopOk)
    (hinv : PMInv pm) : PMInv (applyPM pm op) := by
  cases op with
  | add config => exact addProcess_preserves_inv pm config hinv
  | start name spawn now => exact startProcess_preserves_inv pm name spawn now hinv
  | stop name force stopRaises =>
    have h : stopRaises = false := hok
    subst h
    exact stopProcess_preserves_inv pm name force hinv
  | restart name stopRaises spawn now =>
    have h : stopRaises = false := hok
    subst h
    exact restartProcess_preserves_inv pm name spawn now hinv
  | sample name raw now => exact getProcessMetrics_preserves_inv pm name raw now hinv
  | health name poll => exact checkProcessHealth_preserves_inv pm name poll hinv

/-- C9 (amended): in every state reached by a trace of completed registry and
supervisor operations (register, start, stop, restart, sample_metrics,
health_check) in which no stop phase raises while signalling, a record's pid
is non-null iff its status is RUNNING or STOPPING.  (When a stop raises, the
record is left STOPPING with its pid — still satisfying the biconditional —
but a subsequent failed spawn then leaves FAILED with a stale pid,
violating it, as the counterexample shows.) -/
theorem pid_iff_running_or_stopping (ops : List POp) (hok : ∀ op ∈ ops, op.stopOk) :
    ∀ name p, lookupA name (runPM ops).processes = some p →
      (p.pid ≠ none ↔
        (p.status = ProcessStatus.running ∨ p.status = ProcessStatus.stopping)) := by
  have main : ∀ l : List POp, (∀ op ∈ l, op.stopOk) → ∀ pm, PMInv pm →
      PMInv (l.foldl applyPM pm) := by
    intro l
    induction l with
    | nil => intro _ pm h; exact h
    | cons op l ih =>
      intro hoks pm h
      exact ih (fun o ho => hoks o (List.mem_cons_of_mem _ ho)) _
        (applyPM_preserves_inv pm op (hoks op (List.mem_cons_self _ _)) h)
  have hinv : PMInv (runPM ops) := by
    refine main ops hok ProcessManager.init ?_
    intro n p h
    simp [ProcessManager.init, lookupA] at h
  intro name p hp
  rcases hinv name p hp with ⟨hiff, hns⟩
  constructor
  · intro hne
    exact Or.inl (hiff.mp hne)
  · rintro (hr | hs)
    · exact hiff.mpr hr
    · exact absurd hs hns

/-- Witness for C9 (amended) on the trace that registers and starts `"p"`. -/
theorem pid_iff_running_or_stopping_witness :
    procRunningP.pid ≠ none ↔
      (procRunningP.status = ProcessStatus.running ∨
        procRunningP.status = ProcessStatus.stopping) :=
  pid_iff_running_or_stopping [POp.add cfgP, POp.start "p" (some 42) 0]
    (by intro op hop; fin_cases hop <;> trivial) "p" procRunningP (by decide)

/-- C9 counterexample: after an in-registry trace whose stop raises
(`ProcessLookupError` from `os.getpgid` on a reaped child) and whose next
spawn fails, the record is FAILED yet still carries pid 42 — `pid` non-null
with status outside {RUNNING, STOPPING}. -/
theorem pid_status_mismatch_counterexample :
    (lookupA "p" (runPM pmTraceStale).processes).map (fun q => (q.pid, q.status)) =
      some (some 42, ProcessStatus.failed) := by
  decide


theorem resolveGo_found (arena : List Alert) (aid : String) (idx : Nat) (a : Alert)
    (ha : arena.get? idx = some a) (haid : a.id = aid) :
    ∀ pre : List Nat, (∀ i ∈ pre, matchesId arena aid i = false) →
      ∀ post : List Nat,
        resolveGo arena aid (pre ++ idx :: post) =
          (true, pre ++ post, arena.set idx { a with resolved := true }) := by
  intro pre
  induction pre with
  | nil =>
    intro _ post
    simp only [List.nil_append]
    unfold resolveGo
    rw [ha]
    simp only []
    rw [if_pos haid]
  | cons i pre ih =>
    intro hpre post
    have hmi : matchesId arena aid i = false := hpre i (List.mem_cons_self i pre)
    have hrest : ∀ j ∈ pre, matchesId arena aid j = false :=
      fun j hj => hpre j (List.mem_cons_of_mem i hj)
    simp only [List.cons_append]
    unfold resolveGo
    simp only []
    cases hgi : arena.get? i with
    | none =>
      simp only []
      rw [ih hrest post]
    | some b =>
      have hbid : ¬ b.id = aid := by
        unfold matchesId at hmi
        rw [hgi] at hmi
        simpa using hmi
      simp only []
      rw [if_neg hbid, ih hrest post]

theorem resolveGo_nomatch (arena : List Alert) (aid : String) :
    ∀ l : List Nat, (∀ i ∈ l, matchesId arena aid i = false) →
      resolveGo arena aid l = (false, l, arena) := by
  intro l
  induction l with
  | nil => intro _; rfl
  | cons i rest ih =>
    intro hall
    have hmi : matchesId arena aid i = false := hall i (List.mem_cons_self i rest)
    have hrest : ∀ j ∈ rest, matchesId arena aid j = false :=
      fun j hj => hall j (List.mem_cons_of_mem i hj)
    unfold resolveGo
    cases hgi : arena.get? i with
    | none =>
      simp only []
      rw [ih hrest]
    | some b =>
      have hbid : ¬ b.id = aid := by
        unfold matchesId at hmi
        rw [hgi] at hmi
        simpa using hmi
      simp only []
      rw [if_neg hbid, ih hrest]

theorem ackGo_found (arena : List Alert) (aid : String) (idx : Nat) (a : Alert)
    (ha : arena.get? idx = some a) (haid : a.id = aid) :
    ∀ pre : List Nat, (∀ i ∈ pre, matchesId arena aid i = false) →
      ∀ post : List Nat,
        ackGo arena aid (pre ++ idx :: post) =
          (true, arena.set idx { a with acknowledged := true }) := by
  intro pre
  induction pre with
  | nil =>
    intro _ post
    simp only [List.nil_append]
    unfold ackGo
    rw [ha]
    simp only []
    rw [if_pos haid]
  | cons i pre ih =>
    intro hpre post
    have hmi : matchesId arena aid i = false := hpre i (List.mem_cons_self i pre)
    have hrest : ∀ j ∈ pre, matchesId arena aid j = false :=
      fun j hj => hpre j (List.mem_cons_of_mem i hj)
    simp only [List.cons_append]
    unfold ackGo
    cases hgi : arena.get? i with
    | none =>
      simp only []
      rw [ih hrest post]
    | some b =>
      have hbid : ¬ b.id = aid := by
        unfold matchesId at hmi
        rw [hgi] at hmi
        simpa using hmi
      simp only []
      rw [if_neg hbid, ih hrest post]

/-- C7: on an active alert with a unique id, `resolve` sets the `resolved`
flag and removes the entry from the active list in the same call and returns
true, touching neither history nor cooldowns; a second `resolve` of the same
id returns false and changes nothing.  `acknowledge` only sets the
`acknowledged` flag (the active list, history and cooldowns are untouched)
and a second call returns the same result on the same state. -/
theorem resolve_acknowledge_contract (am : AlertManager) (aid : String)
    (idx : Nat) (a : Alert) (pre post : List Nat)
    (hsplit : am.alerts = pre ++ idx :: post)
    (ha : am.arena.get? idx = some a) (haid : a.id = aid)
    (hpre : ∀ i ∈ pre, matchesId am.arena aid i = false)
    (hpost : ∀ i ∈ post, matchesId am.arena aid i = false) :
    resolveAlert am aid =
      (true, { am with alerts := pre ++ post,
                       arena := am.arena.set idx { a with resolved := true } }) ∧
    resolveAlert (resolveAlert am aid).2 aid = (false, (resolveAlert am aid).2) ∧
    acknowledgeAlert am aid =
      (true, { am with arena := am.arena.set idx { a with acknowledged := true } }) ∧
    acknowledgeAlert (acknowledgeAlert am aid).2 aid =
      (true, (acknowledgeAlert am aid).2) := by
  have hne : ∀ i, i ∈ pre ∨ i ∈ post → i ≠ idx := by
    rintro i (hi | hi) rfl
    · have := hpre i hi
      unfold matchesId at this
      rw [ha] at this
      simp [haid] at this
    · have := hpost i hi
      unfold matchesId at this
      rw [ha] at this
      simp [haid] at this
  have h1 : resolveAlert am aid =
      (true, { am with alerts := pre ++ post,
                       arena := am.arena.set idx { a with resolved := true } }) := by
    unfold resolveAlert
    rw [hsplit, resolveGo_found am.arena aid idx a ha haid pre hpre post]
  refine ⟨h1, ?_, ?_, ?_⟩
  · rw [h1]
    have hmatches : ∀ i ∈ pre ++ post,
        matchesId (am.arena.set idx { a with resolved := true }) aid i = false := by
      intro i hi
      have hine : i ≠ idx := hne i (List.mem_append.mp hi)
      unfold matchesId
      rw [List.get?_set_ne _ _ (Ne.symm hine)]
      rcases List.mem_append.mp hi with h | h
      · have := hpre i h
        unfold matchesId at this
        exact this
      · have := hpost i h
        unfold matchesId at this
        exact this
    unfold resolveAlert
    rw [resolveGo_nomatch _ aid (pre ++ post) hmatches]
  · unfold acknowledgeAlert
    rw [hsplit, ackGo_found am.arena aid idx a ha haid pre hpre post]
  · have h3 : acknowledgeAlert am aid =
        (true, { am with arena := am.arena.set idx { a with acknowledged := true } }) := by
      unfold acknowledgeAlert
      rw [hsplit, ackGo_found am.arena aid idx a ha haid pre hpre post]
    rw [h3]
    have hidxlt : idx < am.arena.length := (List.get?_eq_some.mp ha).1
    have hmatches : ∀ i ∈ pre,
        matchesId (am.arena.set idx { a with acknowledged := true }) aid i = false := by
      intro i hi
      have hine : i ≠ idx := hne i (Or.inl hi)
      unfold matchesId
      rw [List.get?_set_ne _ _ (Ne.symm hine)]
      have := hpre i hi
      unfold matchesId at this
      exact this
    have hget : (am.arena.set idx { a with acknowledged := true }).get? idx =
        some { a with acknowledged := true } :=
      List.get?_set_eq_of_lt _ hidxlt
    unfold acknowledgeAlert
    simp only []
    rw [hsplit, ackGo_found _ aid idx { a with acknowledged := true } hget haid pre
      hmatches post]
    rw [List.set_set]

/-- Witness for C7 on the one-alert manager. -/
theorem resolve_acknowledge_contract_witness :
    (resolveAlert amOneAlert "high_cpu_0").1 = true ∧
    resolveAlert (resolveAlert amOneAlert "high_cpu_0").2 "high_cpu_0" =
      (false, (resolveAlert amOneAlert "high_cpu_0").2) ∧
    (acknowledgeAlert amOneAlert "high_cpu_0").1 = true := by
  have h := resolve_acknowledge_contract amOneAlert "high_cpu_0" 0
    { id := "high_cpu_0", alert_type := AlertType.high_cpu,
      level := AlertLevel.warning, title := "t", message := "m",
      process_name := some "p", timestamp := 0 }
    [] [] (by decide) (by decide) (by decide)
    (by intro i hi; cases hi) (by intro i hi; cases hi)
  refine ⟨by rw [h.1], h.2.1, by rw [h.2.2.1]⟩


theorem AInv_init : AInv AlertManager.init := by
  constructor
  · intro a ha
    simp [AlertManager.init] at ha
  · intro i j a b _ hi _ _
    simp [AlertManager.init, List.get?] at hi

theorem createAlert_preserves_AInv (am : AlertManager) (ty : AlertType)
    (level : AlertLevel) (title msg : String) (pname : Option String)
    (md : List (String × String)) (now : Int) (h : AInv am) :
    AInv (createAlert am ty level title msg pname md now).2 := by
  unfold createAlert
  set key := alertKey ty pname with hkey
  by_cases hcool : (match lookupA key am.alert_cooldowns with
      | some t => decide (now < t)
      | none => false) = true
  · rw [if_pos hcool]
    exact h
  · rw [if_neg hcool]
    have hpast : ∀ t, lookupA key am.alert_cooldowns = some t → t ≤ now := by
      intro t ht
      rw [ht] at hcool
      simp at hcool
      omega
    simp only []
    constructor
    · intro a ha
      rcases List.mem_append.mp ha with hold | hnew
      · rcases h.1 a hold with ⟨c, hc, hle⟩
        by_cases hk : alertKey a.alert_type a.process_name = key
        · refine ⟨now + cooldownDuration, ?_, ?_⟩
          · rw [hk, lookupA_setA_same]
          · rw [hk] at hc
            have := hpast c hc
            unfold cooldownDuration at hle ⊢
            omega
        · exact ⟨c, by rw [lookupA_setA_ne _ _ _ _ hk]; exact hc, hle⟩
      · rcases List.mem_singleton.mp hnew with rfl
        refine ⟨now + cooldownDuration, ?_, le_refl _⟩
        rw [show alertKey ty pname = key from rfl] at hkey ⊢
        exact lookupA_setA_same _ _ _
    · intro i j a b hij hi hj hk
      have hjlt : j < am.arena.length + 1 := by
        have := (List.get?_eq_some.mp hj).1
        simpa using this
      by_cases hjold : j < am.arena.length
      · have hiold : i < am.arena.length := lt_trans hij hjold
        rw [List.get?_append hiold] at hi
        rw [List.get?_append hjold] at hj
        exact h.2 i j a b hij hi hj hk
      · have hjeq : j = am.arena.length := by omega
        subst hjeq
        rw [List.get?_concat_length] at hj
        cases hj
        have hiold : i < am.arena.length := hij
        rw [List.get?_append hiold] at hi
        have hamem : a ∈ am.arena := List.get?_mem hi
        rcases h.1 a hamem with ⟨c, hc, hle⟩
        have hka : alertKey a.alert_type a.process_name = key := hk
        rw [hka] at hc
        have := hpast c hc
        show a.timestamp + cooldownDuration ≤ now
        omega

/-- C3: (i) over any trace of `create_alert` calls from a fresh manager, any
two accepted alerts with the same deduplication key have timestamps at least
5 minutes (300 s) apart — in acceptance order the later is at least the
cooldown after the earlier; (ii) a `create_alert` call whose key's cooldown
is still live returns `None` and leaves the state unchanged, so of two
violations with the same key inside one cooldown window only the first
produces an alert. -/
theorem alert_cooldown_separation :
    (∀ calls : List ACall, ∀ i j a b, i < j →
      (runAlerts calls).arena.get? i = some a →
      (runAlerts calls).arena.get? j = some b →
      alertKey a.alert_type a.process_name = alertKey b.alert_type b.process_name →
      a.timestamp + cooldownDuration ≤ b.timestamp) ∧
    (∀ am ty level title msg pname md (now t : Int),
      lookupA (alertKey ty pname) am.alert_cooldowns = some t → now < t →
      createAlert am ty level title msg pname md now = (none, am)) := by
  constructor
  · have main : ∀ calls : List ACall, ∀ am, AInv am →
        AInv (calls.foldl applyAC am) := by
      intro calls
      induction calls with
      | nil => intro am h; exact h
      | cons c calls ih =>
        intro am h
        exact ih _ (createAlert_preserves_AInv am c.alert_type c.level c.title
          c.message c.process_name c.metadata c.now h)
    intro calls
    exact (main calls AlertManager.init AInv_init).2
  · intro am ty level title msg pname md now t ht hlt
    unfold createAlert
    simp only []
    rw [ht]
    simp [hlt]

/-- Witness for C3: a same-key alert accepted at `t=0` and re-raised at
`t=100` is suppressed; re-raised at `t=300` it is accepted, and the two
accepted timestamps are 300 s apart. -/
theorem alert_cooldown_separation_witness :
    ((runAlerts alertTraceW).arena.map (fun a => a.timestamp) = [0, 300]) ∧
    ((0 : Int) + cooldownDuration ≤ 300) ∧
    createAlert amOneAlert AlertType.high_cpu AlertLevel.warning "t" "m"
      (some "p") [] 100 = (none, amOneAlert) := by
  refine ⟨by decide, ?_, ?_⟩
  · exact alert_cooldown_separation.1 alertTraceW 0 1
      ((runAlerts alertTraceW).arena.get 
        ⟨0, by decide⟩)
      ((runAlerts alertTraceW).arena.get 
        ⟨1, by decide⟩)
      (by decide) (by decide) (by decide) (by decide)
  · exact alert_cooldown_separation.2 amOneAlert AlertType.high_cpu
      AlertLevel.warning "t" "m" (some "p") [] 100 300 (by decide) (by decide)

end ProcessGuard
